import Mathlib

/-!
Shallow embedding of the VeilChat (TibbyTalk) client-side encryption engine
and its TTL message-expiry scheduler, translated from the TypeScript source:

  * direct (1:1) hybrid encryption  — src/unnamed/part_010 (`encryptMessage`,
    `decryptMessage`) and its web copy src/web/src/core/crypto/encryption.ts;
  * identity key generation         — src/unnamed/part_010 (`generateUserKeyPair`);
  * group sender-keys management    — src/unnamed/part_009 (`createGroupKeyBundle`,
    `decryptGroupKey`, `encryptGroupMessage`, `decryptGroupMessage`,
    `rotateGroupKey`);
  * password-protected key backup   — src/unnamed/part_010 (`exportPrivateKeys`,
    `importPrivateKeys`, `deriveKeyFromPassword`);
  * expiry scheduler                — src/unnamed/part_001
    (`startMessageTimer`, `cancelMessageTimer`, `cleanupExpiredMessages`,
    `initializeTimers`, `getActiveTimerCount`).

The WebCrypto provider (`crypto.subtle`) is the host platform, not code of this
repository; it is modelled symbolically as an ideal cryptosystem: byte buffers
form an inductive datatype in which an AES-GCM ciphertext remembers the key and
nonce it was produced with and decrypts exactly under that key and nonce, and an
RSA-OAEP ciphertext remembers the key pair whose public half wrapped it and
unwraps exactly under the matching private half.  Randomness (key generation,
nonces, salts, key ids) is modelled by a caller-supplied counter `rng`; each
randomized operation uses `rng`, `rng+1`, ... for its successive draws, and
freshness across calls is expressed by hypotheses on the counters.  Base64
transport encoding (`arrayBufferToBase64` / `base64ToArrayBuffer` in utils) is a
bijection on byte strings and is modelled as a wrapper type.  JavaScript string
timestamps and numeric timestamps are `Nat`/`Int`; JS `throw` is `Except String`
(the thrown message) where the source distinguishes error messages, and `Option`
where the source lets a platform rejection propagate unlabelled.
-/

/-- Symmetric AES-256 keys: either generated by `subtle.generateKey`
(identified by the random draw that produced them) or derived from a password
by PBKDF2 (`deriveKeyFromPassword`), identified by its exact inputs. -/
inductive SymKey where
  | gen (id : Nat)
  | kdf (password : String) (salt : Nat) (iterations : Nat)
  deriving DecidableEq, Repr

/-- JWK-encoded halves of an RSA-OAEP key pair; `pair` identifies the pair. -/
inductive Jwk where
  | pub (pair : Nat)
  | priv (pair : Nat)
  deriving DecidableEq, Repr

/-- Symbolic byte buffers (the model of `ArrayBuffer`/`Uint8Array` contents). -/
inductive Buf where
  | utf8 (s : String)
  | rawSym (k : SymKey)
  | ivBytes (n : Nat)
  | saltBytes (n : Nat)
  | jsonKeys (m : List (String × Jwk))
  | aesEnc (k : SymKey) (iv : Buf) (payload : Buf)
  | rsaEnc (pair : Nat) (payload : Buf)
  deriving DecidableEq, Repr

/-- Base64 text carrying a byte buffer; `arrayBufferToBase64` and
`base64ToArrayBuffer` (src/unnamed/part_000 utils and the web copy) are an
exact bijection on byte strings, so the model keeps the buffer itself. -/
structure B64 where
  data : Buf
  deriving DecidableEq, Repr

def arrayBufferToBase64 (b : Buf) : B64 := ⟨b⟩

def base64ToArrayBuffer (s : B64) : Buf := s.data

/-- Model of `subtle.importKey` with JWK format and usage `encrypt`:
succeeds only on a public JWK. -/
def importPublicKey : Jwk → Option Nat
  | .pub n => some n
  | .priv _ => none

/-- Model of `subtle.importKey` with JWK format and usage `decrypt`:
succeeds only on a private JWK. -/
def importPrivateKey : Jwk → Option Nat
  | .priv n => some n
  | .pub _ => none

/-- Model of `subtle.importKey` with raw format for AES-GCM: succeeds only on
the raw bytes of a symmetric key. -/
def importSymmetricKey : Buf → Option SymKey
  | .rawSym k => some k
  | _ => none

/-- Model of `subtle.exportKey` with raw format on a symmetric key. -/
def exportSymmetricKey (k : SymKey) : Buf := .rawSym k

/-- Model of `subtle.encrypt` under RSA-OAEP with the public half of `pair`. -/
def rsaEncrypt (pair : Nat) (payload : Buf) : Buf := .rsaEnc pair payload

/-- Model of `subtle.decrypt` under RSA-OAEP with the private half of `pair`:
unwraps exactly the ciphertexts wrapped under the matching public half, and
rejects (platform `OperationError`) on everything else. -/
def rsaDecrypt (pair : Nat) : Buf → Option Buf
  | .rsaEnc q payload => if q = pair then some payload else none
  | _ => none

/-- Model of `subtle.encrypt` under AES-GCM with key `k` and nonce `iv`. -/
def aesEncrypt (k : SymKey) (iv : Buf) (payload : Buf) : Buf := .aesEnc k iv payload

/-- Model of `subtle.decrypt` under AES-GCM: authenticated decryption succeeds
exactly on a ciphertext produced under the same key and nonce, and rejects
(platform `OperationError`) on everything else. -/
def aesDecrypt (k : SymKey) (iv : Buf) : Buf → Option Buf
  | .aesEnc k' iv' payload => if k' = k ∧ iv' = iv then some payload else none
  | _ => none

/-- Model of `TextDecoder.decode`: total (the real decoder never throws);
non-UTF-8 buffers decode to replacement garbage, modelled as the empty
string. -/
def decodeUtf8 : Buf → String
  | .utf8 s => s
  | _ => ""

/-- KeyPair record returned by `generateUserKeyPair` (src/unnamed/part_010). -/
structure KeyPair where
  publicKey : Jwk
  privateKey : Jwk
  keyId : Nat
  createdAt : Nat
  deriving DecidableEq, Repr

/-- Model of `generateUserKeyPair`: generates a fresh RSA-2048 pair (pair id
drawn from `rng`) and a fresh random `keyId` (drawn from `rng+1`). -/
def generateUserKeyPair (now rng : Nat) : KeyPair :=
  { publicKey := .pub rng
    privateKey := .priv rng
    keyId := rng + 1
    createdAt := now }

/-- EncryptedMessage payload shape (src/src/types/index.ts). -/
structure EncryptedMessage where
  encrypted : Bool
  version : String
  data : B64
  key : B64
  iv : B64
  deriving DecidableEq, Repr

/-- Model of `encryptMessage` (src/unnamed/part_010 lines 31-73): import the
recipient public key, generate a one-time AES-256 key (draw `rng`) and a fresh
96-bit nonce (draw `rng+1`), AES-GCM-encrypt the UTF-8 plaintext, RSA-wrap the
raw symmetric key, and base64-encode the three fields. -/
def encryptMessage (plaintext : String) (recipientPublicKeyJwk : Jwk) (rng : Nat) :
    Option EncryptedMessage :=
  match importPublicKey recipientPublicKeyJwk with
  | none => none
  | some publicKey =>
    let symmetricKey : SymKey := .gen rng
    let iv : Buf := .ivBytes (rng + 1)
    let encryptedData := aesEncrypt symmetricKey iv (.utf8 plaintext)
    let encryptedKey := rsaEncrypt publicKey (exportSymmetricKey symmetricKey)
    some { encrypted := true
           version := "tt-e1"
           data := arrayBufferToBase64 encryptedData
           key := arrayBufferToBase64 encryptedKey
           iv := arrayBufferToBase64 iv }

/-- Model of `decryptMessage` (src/unnamed/part_010 lines 82-124): import the
private key, RSA-unwrap the symmetric key, import it, AES-GCM-decrypt the data,
decode.  The source performs no version check and catches nothing: any platform
rejection propagates, modelled as `none`. -/
def decryptMessage (encryptedPayload : EncryptedMessage) (privateKeyJwk : Jwk) :
    Option String :=
  match importPrivateKey privateKeyJwk with
  | none => none
  | some privateKey =>
    match rsaDecrypt privateKey (base64ToArrayBuffer encryptedPayload.key) with
    | none => none
    | some symmetricKeyBytes =>
      match importSymmetricKey symmetricKeyBytes with
      | none => none
      | some symmetricKey =>
        match aesDecrypt symmetricKey (base64ToArrayBuffer encryptedPayload.iv)
            (base64ToArrayBuffer encryptedPayload.data) with
        | none => none
        | some decryptedBytes => some (decodeUtf8 decryptedBytes)

/-- Claim C1: direct encryption round-trips through decryption for every
plaintext and every generated identity key pair. -/
theorem direct_round_trip (p : String) (now r r2 : Nat) :
    (encryptMessage p (generateUserKeyPair now r).publicKey r2).bind
      (fun e => decryptMessage e (generateUserKeyPair now r).privateKey) = some p := by
  simp [encryptMessage, decryptMessage, generateUserKeyPair, importPublicKey,
    importPrivateKey, rsaEncrypt, rsaDecrypt, exportSymmetricKey,
    importSymmetricKey, aesEncrypt, aesDecrypt, arrayBufferToBase64,
    base64ToArrayBuffer, decodeUtf8]

/-- ParticipantKey record (src/src/types/index.ts): a member's public key and
its key id, as stored in a conversation's `participantKeys` map. -/
structure ParticipantKey where
  publicKey : Jwk
  keyId : Nat
  deriving DecidableEq, Repr

/-- GroupKeyBundle record (src/unnamed/part_009 lines 25-30); `encryptedKeys`
is the `userId -> base64 wrapped key` record, kept in entry order. -/
structure GroupKeyBundle where
  keyId : Nat
  encryptedKeys : List (String × B64)
  createdAt : Nat
  createdBy : String
  deriving DecidableEq, Repr

/-- Lookup in a string-keyed record, first matching entry (JS records have
unique keys; uniqueness is a hypothesis where theorems need it). -/
def recordGet {α : Type} (k : String) : List (String × α) → Option α
  | [] => none
  | (k', v) :: rest => if k' = k then some v else recordGet k rest

/-- Loop body of `createGroupKeyBundle` (src/unnamed/part_009 lines 50-60):
for each member, import their public key and RSA-wrap the raw group-key
bytes; a failing import aborts the whole call. -/
def encryptKeysForMembers : List (String × ParticipantKey) → Buf →
    Option (List (String × B64))
  | [], _ => some []
  | (userId, participantKey) :: rest, rawKeyBytes =>
    match importPublicKey participantKey.publicKey with
    | none => none
    | some publicKey =>
      match encryptKeysForMembers rest rawKeyBytes with
      | none => none
      | some tail =>
        some ((userId, arrayBufferToBase64 (rsaEncrypt publicKey rawKeyBytes)) :: tail)

/-- Model of `createGroupKeyBundle` (src/unnamed/part_009 lines 39-71):
generate the shared AES-256 group key (draw `rng`) and its random keyId (draw
`rng+1`), export the raw key bytes, wrap them for every member, and assemble
the bundle. -/
def createGroupKeyBundle (memberPublicKeys : List (String × ParticipantKey))
    (creatorId : String) (now rng : Nat) : Option (GroupKeyBundle × SymKey) :=
  let groupKey : SymKey := .gen rng
  let keyId : Nat := rng + 1
  let rawKeyBytes := exportSymmetricKey groupKey
  match encryptKeysForMembers memberPublicKeys rawKeyBytes with
  | none => none
  | some encryptedKeys =>
    some ({ keyId := keyId
            encryptedKeys := encryptedKeys
            createdAt := now
            createdBy := creatorId }, groupKey)

/-- Model of `decryptGroupKey` (src/unnamed/part_009 lines 80-94): import the
private key, RSA-unwrap the wrapped group key, import the raw bytes as an
AES key. -/
def decryptGroupKey (encryptedKey : B64) (privateKeyJwk : Jwk) : Option SymKey :=
  match importPrivateKey privateKeyJwk with
  | none => none
  | some privateKey =>
    match rsaDecrypt privateKey (base64ToArrayBuffer encryptedKey) with
    | none => none
    | some rawKeyBytes => importSymmetricKey rawKeyBytes

/-- GroupEncryptedMessage payload shape (src/src/types/index.ts). -/
structure GroupEncryptedMessage where
  encrypted : Bool
  version : String
  data : B64
  iv : B64
  keyId : Nat
  deriving DecidableEq, Repr

/-- Model of `encryptGroupMessage` (src/unnamed/part_009 lines 104-126): fresh
96-bit nonce (draw `rng`), AES-GCM-encrypt under the group key, tag with the
supplied keyId. -/
def encryptGroupMessage (plaintext : String) (groupKey : SymKey) (keyId : Nat)
    (rng : Nat) : GroupEncryptedMessage :=
  let iv : Buf := .ivBytes rng
  { encrypted := true
    version := "tt-e1"
    data := arrayBufferToBase64 (aesEncrypt groupKey iv (.utf8 plaintext))
    iv := arrayBufferToBase64 iv
    keyId := keyId }

/-- Model of `decryptGroupMessage` (src/unnamed/part_009 lines 135-150):
AES-GCM-decrypt `data` with `iv` under the supplied group key; no version
check; a platform rejection propagates as `none`. -/
def decryptGroupMessage (encryptedPayload : GroupEncryptedMessage)
    (groupKey : SymKey) : Option String :=
  (aesDecrypt groupKey (base64ToArrayBuffer encryptedPayload.iv)
    (base64ToArrayBuffer encryptedPayload.data)).map decodeUtf8

/-- Model of `rotateGroupKey` (src/unnamed/part_009 lines 160-166): simply
creates a new key bundle for the remaining members. -/
def rotateGroupKey (remainingMemberKeys : List (String × ParticipantKey))
    (creatorId : String) (now rng : Nat) : Option (GroupKeyBundle × SymKey) :=
  createGroupKeyBundle remainingMemberKeys creatorId now rng

/-- Build a member record whose entries are genuine RSA public keys: member
`(userId, pairId)` contributes the public half of key pair `pairId`. -/
def toMemberKeys (members : List (String × Nat)) : List (String × ParticipantKey) :=
  members.map (fun m => (m.1, { publicKey := .pub m.2, keyId := m.2 }))

theorem encryptKeysForMembers_toMemberKeys (members : List (String × Nat)) (raw : Buf) :
    encryptKeysForMembers (toMemberKeys members) raw =
      some (members.map (fun m => (m.1, arrayBufferToBase64 (Buf.rsaEnc m.2 raw)))) := by
  induction members with
  | nil => rfl
  | cons hd tl ih =>
    simp only [toMemberKeys] at ih ⊢
    simp [encryptKeysForMembers, importPublicKey, rsaEncrypt, ih]

theorem recordGet_map_of_mem {α : Type} (f : String × Nat → α)
    (members : List (String × Nat)) (u : String) (pid : Nat)
    (hnd : (members.map Prod.fst).Nodup) (hmem : (u, pid) ∈ members) :
    recordGet u (members.map (fun m => (m.1, f m))) = some (f (u, pid)) := by
  induction members with
  | nil => simp at hmem
  | cons hd tl ih =>
    rw [List.map_cons] at hnd
    simp only [List.map_cons, recordGet]
    rcases List.mem_cons.mp hmem with heq | htl
    · subst heq
      simp
    · have hu : u ∈ tl.map Prod.fst := List.mem_map_of_mem Prod.fst htl
      have hne : hd.1 ≠ u := by
        intro h
        exact (List.nodup_cons.mp hnd).1 (h ▸ hu)
      rw [if_neg hne]
      exact ih (List.nodup_cons.mp hnd).2 htl

theorem recordGet_map_of_not_mem {α : Type} (f : String × Nat → α)
    (members : List (String × Nat)) (u : String)
    (hu : u ∉ members.map Prod.fst) :
    recordGet u (members.map (fun m => (m.1, f m))) = none := by
  induction members with
  | nil => rfl
  | cons hd tl ih =>
    simp only [List.map_cons, recordGet]
    simp only [List.map_cons, List.mem_cons, not_or] at hu
    rw [if_neg (fun h => hu.1 h.symm)]
    exact ih hu.2

/-- Claim C2: `createGroupKeyBundle` wraps the group key for exactly the given
members, and every member recovers the group key from their bundle entry with
their private key and then round-trips any group message through
encrypt/decrypt under it. -/
theorem group_round_trip (members : List (String × Nat)) (c : String)
    (now rng : Nat) (p : String) (rng2 : Nat)
    (hnd : (members.map Prod.fst).Nodup) :
    ∃ bundle groupKey,
      createGroupKeyBundle (toMemberKeys members) c now rng = some (bundle, groupKey) ∧
      bundle.encryptedKeys.map Prod.fst = members.map Prod.fst ∧
      ∀ u pid, (u, pid) ∈ members →
        ∃ wrapped, recordGet u bundle.encryptedKeys = some wrapped ∧
          decryptGroupKey wrapped (Jwk.priv pid) = some groupKey ∧
          decryptGroupMessage (encryptGroupMessage p groupKey bundle.keyId rng2)
            groupKey = some p := by
  refine ⟨{ keyId := rng + 1
            encryptedKeys := members.map (fun m =>
              (m.1, arrayBufferToBase64 (Buf.rsaEnc m.2 (Buf.rawSym (.gen rng)))))
            createdAt := now
            createdBy := c }, .gen rng, ?_, ?_, ?_⟩
  · simp [createGroupKeyBundle, exportSymmetricKey,
      encryptKeysForMembers_toMemberKeys]
  · simp
  · intro u pid hmem
    refine ⟨arrayBufferToBase64 (Buf.rsaEnc pid (Buf.rawSym (.gen rng))), ?_, ?_, ?_⟩
    · exact recordGet_map_of_mem
        (fun m => arrayBufferToBase64 (Buf.rsaEnc m.2 (Buf.rawSym (.gen rng))))
        members u pid hnd hmem
    · simp [decryptGroupKey, importPrivateKey, rsaDecrypt, base64ToArrayBuffer,
        arrayBufferToBase64, importSymmetricKey]
    · simp [decryptGroupMessage, encryptGroupMessage, aesEncrypt, aesDecrypt,
        base64ToArrayBuffer, arrayBufferToBase64, decodeUtf8]

/-- Witness for C2 at a concrete two-member group. -/
theorem group_round_trip_witness :
    ((([("alice", 1), ("bob", 2)] : List (String × Nat)).map Prod.fst).Nodup) ∧
    (∃ bundle groupKey,
      createGroupKeyBundle (toMemberKeys [("alice", 1), ("bob", 2)]) "alice" 0 5 =
        some (bundle, groupKey) ∧
      bundle.encryptedKeys.map Prod.fst =
        ([("alice", 1), ("bob", 2)] : List (String × Nat)).map Prod.fst ∧
      ∀ u pid, (u, pid) ∈ ([("alice", 1), ("bob", 2)] : List (String × Nat)) →
        ∃ wrapped, recordGet u bundle.encryptedKeys = some wrapped ∧
          decryptGroupKey wrapped (Jwk.priv pid) = some groupKey ∧
          decryptGroupMessage (encryptGroupMessage "hi" groupKey bundle.keyId 99)
            groupKey = some "hi") :=
  ⟨by decide, group_round_trip [("alice", 1), ("bob", 2)] "alice" 0 5 "hi" 99 (by decide)⟩

/-- Claim C3: `rotateGroupKey` over a remaining-member map that excludes X
produces a bundle with no entry for X; the new group key is freshly generated
(distinct from any previously generated key, freshness of the random draw
expressed by `hfresh`), and a group message encrypted under the new key does
not decrypt under X's previously unwrapped old key. -/
theorem rotate_excludes_removed (remaining : List (String × Nat)) (x : String)
    (initiatorId : String) (now rng oldDraw : Nat) (p : String) (rng2 : Nat)
    (hx : x ∉ remaining.map Prod.fst) (hfresh : oldDraw ≠ rng) :
    ∃ bundle newKey,
      rotateGroupKey (toMemberKeys remaining) initiatorId now rng =
        some (bundle, newKey) ∧
      recordGet x bundle.encryptedKeys = none ∧
      newKey ≠ SymKey.gen oldDraw ∧
      decryptGroupMessage (encryptGroupMessage p newKey bundle.keyId rng2)
        (SymKey.gen oldDraw) = none := by
  refine ⟨{ keyId := rng + 1
            encryptedKeys := remaining.map (fun m =>
              (m.1, arrayBufferToBase64 (Buf.rsaEnc m.2 (Buf.rawSym (.gen rng)))))
            createdAt := now
            createdBy := initiatorId }, .gen rng, ?_, ?_, ?_, ?_⟩
  · simp [rotateGroupKey, createGroupKeyBundle, exportSymmetricKey,
      encryptKeysForMembers_toMemberKeys]
  · exact recordGet_map_of_not_mem
      (fun m => arrayBufferToBase64 (Buf.rsaEnc m.2 (Buf.rawSym (.gen rng))))
      remaining x hx
  · intro h
    exact hfresh (by injection h with h2; exact h2.symm)
  · simp [decryptGroupMessage, encryptGroupMessage, aesEncrypt, aesDecrypt,
      base64ToArrayBuffer, arrayBufferToBase64]
    intro h
    exact hfresh h.symm

/-- Witness for C3: a three-member group rotated to exclude member "carol". -/
theorem rotate_excludes_removed_witness :
    (("carol" : String) ∉ ([("alice", 1), ("bob", 2)] : List (String × Nat)).map Prod.fst) ∧
    ((3 : Nat) ≠ 10) ∧
    (∃ bundle newKey,
      rotateGroupKey (toMemberKeys [("alice", 1), ("bob", 2)]) "alice" 7 10 =
        some (bundle, newKey) ∧
      recordGet "carol" bundle.encryptedKeys = none ∧
      newKey ≠ SymKey.gen 3 ∧
      decryptGroupMessage (encryptGroupMessage "post-rotation" newKey bundle.keyId 42)
        (SymKey.gen 3) = none) :=
  ⟨by decide, by decide,
    rotate_excludes_removed [("alice", 1), ("bob", 2)] "carol" "alice" 7 10 3
      "post-rotation" 42 (by decide) (by decide)⟩

/-- Counterexample to claim C4: `decryptMessage` and `decryptGroupMessage`
perform no version check at all.  A direct payload and a group payload whose
version field is "evil" are decrypted best-effort to their plaintexts instead
of being rejected with `UnsupportedMessageVersion`. -/
theorem decrypt_no_version_check_counterexample :
    decryptMessage
      { encrypted := true
        version := "evil"
        data := ⟨.aesEnc (.gen 10) (.ivBytes 11) (.utf8 "hi")⟩
        key := ⟨.rsaEnc 0 (.rawSym (.gen 10))⟩
        iv := ⟨.ivBytes 11⟩ } (Jwk.priv 0) = some "hi" ∧
    decryptGroupMessage
      { encrypted := true
        version := "evil"
        data := ⟨.aesEnc (.gen 5) (.ivBytes 6) (.utf8 "hi")⟩
        iv := ⟨.ivBytes 6⟩
        keyId := 7 } (SymKey.gen 5) = some "hi" := by
  constructor
  · decide
  · decide

/-- Claim C4 as amended: the decrypt operations never inspect the version
field — decryption behaves identically whatever the version value, so a
payload whose version differs from "tt-e1" is processed best-effort rather
than rejected. -/
theorem decrypt_ignores_version (payload : EncryptedMessage)
    (gpayload : GroupEncryptedMessage) (privateKeyJwk : Jwk) (groupKey : SymKey)
    (v : String) :
    decryptMessage { payload with version := v } privateKeyJwk =
      decryptMessage payload privateKeyJwk ∧
    decryptGroupMessage { gpayload with version := v } groupKey =
      decryptGroupMessage gpayload groupKey :=
  ⟨rfl, rfl⟩

/-- Claim C5: every failure of `decryptMessage` — whether the RSA unwrap of
the wrapped symmetric key rejects or the AEAD decryption of the data rejects —
produces one and the same observable outcome (`none`, the single generic
decryption failure), so the two failure modes are indistinguishable to the
caller. -/
theorem decrypt_failure_indistinguishable (payload : EncryptedMessage)
    (privateKeyJwk : Jwk) (pk : Nat)
    (hpriv : importPrivateKey privateKeyJwk = some pk) :
    (rsaDecrypt pk (base64ToArrayBuffer payload.key) = none →
      decryptMessage payload privateKeyJwk = none) ∧
    (∀ raw sym, rsaDecrypt pk (base64ToArrayBuffer payload.key) = some raw →
      importSymmetricKey raw = some sym →
      aesDecrypt sym (base64ToArrayBuffer payload.iv)
        (base64ToArrayBuffer payload.data) = none →
      decryptMessage payload privateKeyJwk = none) := by
  constructor
  · intro hunwrap
    simp [decryptMessage, hpriv, hunwrap]
  · intro raw sym hunwrap himp haead
    simp [decryptMessage, hpriv, hunwrap, himp, haead]

/-- Witness for C5: a payload whose wrapped key is junk (unwrap failure) and a
payload wrapped for the right recipient but whose data was encrypted under a
different symmetric key (AEAD failure) both decrypt to `none`. -/
theorem decrypt_failure_indistinguishable_witness :
    decryptMessage
      { encrypted := true
        version := "tt-e1"
        data := ⟨.utf8 "x"⟩
        key := ⟨.utf8 "junk"⟩
        iv := ⟨.ivBytes 0⟩ } (Jwk.priv 0) = none ∧
    decryptMessage
      { encrypted := true
        version := "tt-e1"
        data := ⟨.aesEnc (.gen 99) (.ivBytes 1) (.utf8 "m")⟩
        key := ⟨.rsaEnc 0 (.rawSym (.gen 5))⟩
        iv := ⟨.ivBytes 1⟩ } (Jwk.priv 0) = none :=
  ⟨(decrypt_failure_indistinguishable
      { encrypted := true
        version := "tt-e1"
        data := ⟨.utf8 "x"⟩
        key := ⟨.utf8 "junk"⟩
        iv := ⟨.ivBytes 0⟩ } (Jwk.priv 0) 0 (by decide)).1 (by decide),
   (decrypt_failure_indistinguishable
      { encrypted := true
        version := "tt-e1"
        data := ⟨.aesEnc (.gen 99) (.ivBytes 1) (.utf8 "m")⟩
        key := ⟨.rsaEnc 0 (.rawSym (.gen 5))⟩
        iv := ⟨.ivBytes 1⟩ } (Jwk.priv 0) 0 (by decide)).2
     (Buf.rawSym (.gen 5)) (SymKey.gen 5) (by decide) (by decide) (by decide)⟩

/-- EncryptedKeyBundle backup shape (src/src/types/index.ts); `ciphertext` is
`Option` so that `none` models a bundle whose ciphertext field is missing or
empty (JS-falsy), which `importPrivateKeys` rejects up front. -/
structure EncryptedKeyBundle where
  version : String
  algorithm : String
  iterations : Nat
  salt : B64
  iv : B64
  ciphertext : Option B64
  exportedAt : Nat
  deriving DecidableEq, Repr

/-- Salt bytes fed to PBKDF2, reduced to the random draw that produced them;
arbitrary other buffers all behave as draw 0 (only the round-trip equality of
identical salts matters to the claims, not distinctness of malformed ones). -/
def saltSeed : Buf → Nat
  | .saltBytes n => n
  | _ => 0

/-- Model of `deriveKeyFromPassword` (src/unnamed/part_010 lines 201-227):
PBKDF2-SHA-256 is a deterministic function of password, salt and iteration
count, so the derived AES key is identified by exactly those inputs. -/
def deriveKeyFromPassword (password : String) (salt : Buf) (iterations : Nat) :
    SymKey :=
  .kdf password (saltSeed salt) iterations

/-- Model of `JSON.parse` composed with `TextDecoder.decode` on the decrypted
backup plaintext: succeeds exactly on the canonical serialization of a key
map and throws (`none`) on any other buffer. -/
def parseKeysJson : Buf → Option (List (String × Jwk))
  | .jsonKeys m => some m
  | _ => none

/-- Model of `exportPrivateKeys` (src/unnamed/part_010 lines 237-274): reject
a password shorter than 8 characters; draw a random salt (`rng`) and nonce
(`rng+1`); derive the key with 100000 iterations; AES-GCM-encrypt the JSON
serialization of the key map; emit the self-describing bundle. -/
def exportPrivateKeys (privateKeys : List (String × Jwk)) (password : String)
    (now rng : Nat) : Except String EncryptedKeyBundle :=
  if password = "" ∨ password.length < 8 then
    .error "Password must be at least 8 characters"
  else
    let salt : Buf := .saltBytes rng
    let iv : Buf := .ivBytes (rng + 1)
    let iterations : Nat := 100000
    let encryptionKey := deriveKeyFromPassword password salt iterations
    let keysData : Buf := .jsonKeys privateKeys
    let encryptedData := aesEncrypt encryptionKey iv keysData
    .ok { version := "1.0"
          algorithm := "PBKDF2-AES-GCM-256"
          iterations := iterations
          salt := arrayBufferToBase64 salt
          iv := arrayBufferToBase64 iv
          ciphertext := some (arrayBufferToBase64 encryptedData)
          exportedAt := now }

/-- Model of `importPrivateKeys` (src/unnamed/part_010 lines 283-322): reject
a bundle with a missing/empty ciphertext, an empty password, or a version
other than "1.0"; re-derive the key from the bundle's own salt and iteration
count (falling back to 100000 when the stored count is JS-falsy, the
`iterations || 100000` in the source); AES-GCM-decrypt and deserialize, any
failure in that final step collapsing to the single generic error. -/
def importPrivateKeys (encryptedBundle : EncryptedKeyBundle) (password : String) :
    Except String (List (String × Jwk)) :=
  match encryptedBundle.ciphertext with
  | none => .error "Invalid key bundle format"
  | some ciphertextB64 =>
    if password = "" then .error "Password is required"
    else if encryptedBundle.version ≠ "1.0" then
      .error "Unsupported key bundle version"
    else
      let salt := base64ToArrayBuffer encryptedBundle.salt
      let iv := base64ToArrayBuffer encryptedBundle.iv
      let ciphertext := base64ToArrayBuffer ciphertextB64
      let iterations :=
        if encryptedBundle.iterations = 0 then 100000 else encryptedBundle.iterations
      let decryptionKey := deriveKeyFromPassword password salt iterations
      match aesDecrypt decryptionKey iv ciphertext with
      | none => .error "Invalid password or corrupted key bundle"
      | some decryptedData =>
        match parseKeysJson decryptedData with
        | none => .error "Invalid password or corrupted key bundle"
        | some keys => .ok keys

/-- Claim C6: with a password of length at least 8, importing an exported
backup with the same password returns the original key map; with a shorter
password, export rejects with the validation error and produces no bundle. -/
theorem backup_round_trip (privateKeys : List (String × Jwk)) (password : String)
    (now rng : Nat) :
    (8 ≤ password.length →
      (exportPrivateKeys privateKeys password now rng).bind
        (fun b => importPrivateKeys b password) = .ok privateKeys) ∧
    (password.length < 8 →
      exportPrivateKeys privateKeys password now rng =
        .error "Password must be at least 8 characters") := by
  constructor
  · intro hlen
    have hne : password ≠ "" := by
      intro h
      rw [h] at hlen
      simp [String.length] at hlen
    rw [exportPrivateKeys, if_neg (by push_neg; exact ⟨hne, by omega⟩)]
    simp [Except.bind, importPrivateKeys, hne, deriveKeyFromPassword,
      base64ToArrayBuffer, arrayBufferToBase64, aesEncrypt, aesDecrypt,
      parseKeysJson, saltSeed]
  · intro hlen
    rw [exportPrivateKeys, if_pos (Or.inr hlen)]

/-- Witness for C6 at a concrete key map and the 8-character password. -/
theorem backup_round_trip_witness :
    (8 ≤ ("hunter2!" : String).length ∧
      (exportPrivateKeys [("kid1", Jwk.priv 3)] "hunter2!" 0 0).bind
        (fun b => importPrivateKeys b "hunter2!") = .ok [("kid1", Jwk.priv 3)]) ∧
    (("short" : String).length < 8 ∧
      exportPrivateKeys [("kid1", Jwk.priv 3)] "short" 0 0 =
        .error "Password must be at least 8 characters") :=
  ⟨⟨by decide, (backup_round_trip [("kid1", Jwk.priv 3)] "hunter2!" 0 0).1 (by decide)⟩,
   ⟨by decide, (backup_round_trip [("kid1", Jwk.priv 3)] "short" 0 0).2 (by decide)⟩⟩

/-- Message metadata consumed by the scheduler (src/src/types/index.ts);
`expiresAt = none` folds together an absent field and the JS-falsy timestamp
0, both of which the source's truthiness checks treat as "no TTL". -/
structure Message where
  id : String
  conversationId : String
  expiresAt : Option Int
  deriving DecidableEq, Repr

/-- State of the scheduler: the module-level `activeTimers` map from message
id to its armed one-shot timer, represented by the instant it fires at. -/
structure SchedState where
  activeTimers : List (String × Int)
  deriving DecidableEq, Repr

/-- Membership test on the timer map (`activeTimers.has`). -/
def hasTimer (messageId : String) (st : SchedState) : Bool :=
  (recordGet messageId st.activeTimers).isSome

/-- Model of `getActiveTimerCount` (src/unnamed/part_001 lines 426-428). -/
def getActiveTimerCount (st : SchedState) : Nat :=
  st.activeTimers.length

/-- Number of timer-map entries registered for one id. -/
def countTimers (messageId : String) (st : SchedState) : Nat :=
  (st.activeTimers.filter (fun x => x.1 == messageId)).length

/-- Model of `startMessageTimer` (src/unnamed/part_001 lines 301-323): no-op
if the message has no TTL or a timer for its id is already active; if the
expiry is now-or-past, invoke `onExpire` (recorded in the returned event list)
without registering anything; otherwise arm a timer.  The `onExpire` callback
is modelled by the list of ids it was invoked for during the call. -/
def startMessageTimer (message : Message) (now : Int) (st : SchedState) :
    SchedState × List String :=
  match message.expiresAt with
  | none => (st, [])
  | some expiresAt =>
    if hasTimer message.id st then (st, [])
    else
      let msUntilExpiry := expiresAt - now
      if msUntilExpiry ≤ 0 then (st, [message.id])
      else ({ activeTimers := (message.id, expiresAt) :: st.activeTimers }, [])

/-- Model of `cancelMessageTimer` (src/unnamed/part_001 lines 328-334): clear
and remove the timer for the id when one is registered, otherwise no-op. -/
def cancelMessageTimer (messageId : String) (st : SchedState) : SchedState :=
  match recordGet messageId st.activeTimers with
  | none => st
  | some _ => { activeTimers := st.activeTimers.filter (fun x => x.1 != messageId) }

theorem filter_eq_nil_of_recordGet_none {α : Type} (messageId : String)
    (l : List (String × α)) (h : recordGet messageId l = none) :
    l.filter (fun x => x.1 == messageId) = [] := by
  induction l with
  | nil => rfl
  | cons hd tl ih =>
    rw [recordGet] at h
    by_cases hk : hd.1 = messageId
    · rw [if_pos hk] at h
      simp at h
    · rw [if_neg hk] at h
      have hb : (hd.1 == messageId) = false := by simp [hk]
      rw [List.filter_cons, hb]
      simpa using ih h

/-- Claim C7: for a message with a future expiry, calling `startMessageTimer`
twice leaves exactly one registered timer for its id and the second call is a
no-op; `cancelMessageTimer` on an unregistered id leaves the map unchanged. -/
theorem timer_idempotence (m : Message) (e now : Int) (st : SchedState)
    (hexp : m.expiresAt = some e) (hfut : now < e)
    (habs : hasTimer m.id st = false) :
    (startMessageTimer m now (startMessageTimer m now st).1).1 =
      (startMessageTimer m now st).1 ∧
    countTimers m.id (startMessageTimer m now (startMessageTimer m now st).1).1 = 1 ∧
    (∀ messageId, hasTimer messageId st = false →
      cancelMessageTimer messageId st = st) := by
  have hpos : ¬(e - now ≤ 0) := by omega
  have h1 : (startMessageTimer m now st).1 =
      { activeTimers := (m.id, e) :: st.activeTimers } := by
    rw [startMessageTimer, hexp]
    simp [habs, hpos]
  have hhas : hasTimer m.id (startMessageTimer m now st).1 = true := by
    rw [h1]
    simp [hasTimer, recordGet]
  have h2 : (startMessageTimer m now (startMessageTimer m now st).1).1 =
      (startMessageTimer m now st).1 := by
    rw [startMessageTimer, hexp]
    simp [hhas]
  refine ⟨h2, ?_, ?_⟩
  · rw [h2, h1]
    have hnone : recordGet m.id st.activeTimers = none := by
      have := habs
      rw [hasTimer] at this
      exact Option.not_isSome_iff_eq_none.mp (by simp [this])
    simp [countTimers, List.filter,
      filter_eq_nil_of_recordGet_none m.id st.activeTimers hnone]
  · intro messageId hmid
    rw [cancelMessageTimer]
    have hnone : recordGet messageId st.activeTimers = none := by
      rw [hasTimer] at hmid
      exact Option.not_isSome_iff_eq_none.mp (by simp [hmid])
    rw [hnone]

/-- Witness for C7 on a concrete future-dated message and the empty state. -/
theorem timer_idempotence_witness :
    ((({ id := "m1", conversationId := "c1", expiresAt := some 100 } : Message).expiresAt
        = some 100) ∧
      ((50 : Int) < 100) ∧
      (hasTimer "m1" { activeTimers := [] } = false)) ∧
    ((startMessageTimer { id := "m1", conversationId := "c1", expiresAt := some 100 } 50
        (startMessageTimer { id := "m1", conversationId := "c1", expiresAt := some 100 } 50
          { activeTimers := [] }).1).1 =
      (startMessageTimer { id := "m1", conversationId := "c1", expiresAt := some 100 } 50
        { activeTimers := [] }).1 ∧
    countTimers "m1"
      (startMessageTimer { id := "m1", conversationId := "c1", expiresAt := some 100 } 50
        (startMessageTimer { id := "m1", conversationId := "c1", expiresAt := some 100 } 50
          { activeTimers := [] }).1).1 = 1 ∧
    (∀ messageId, hasTimer messageId { activeTimers := [] } = false →
      cancelMessageTimer messageId { activeTimers := [] } = { activeTimers := [] })) :=
  ⟨⟨by decide, by decide, by decide⟩,
    timer_idempotence { id := "m1", conversationId := "c1", expiresAt := some 100 }
      100 50 { activeTimers := [] } (by decide) (by decide) (by decide)⟩

/-- Loop body of `initializeTimers` (src/unnamed/part_001 lines 412-421): a
timer is started only for a message whose expiry lies strictly in the future;
all other messages are skipped. -/
def initStep (now : Int) (acc : SchedState × List String) (message : Message) :
    SchedState × List String :=
  match message.expiresAt with
  | some e =>
    if now < e then
      let r := startMessageTimer message now acc.1
      (r.1, acc.2 ++ r.2)
    else acc
  | none => acc

/-- Model of `initializeTimers` (src/unnamed/part_001 lines 412-421). -/
def initializeTimers (messages : List Message) (now : Int) (st : SchedState) :
    SchedState × List String :=
  messages.foldl (initStep now) (st, [])

theorem startMessageTimer_no_fire (m : Message) (e now : Int) (st : SchedState)
    (hexp : m.expiresAt = some e) (hfut : now < e) :
    (startMessageTimer m now st).2 = [] := by
  rw [startMessageTimer, hexp]
  by_cases h : hasTimer m.id st
  · simp [h]
  · simp [h, show ¬(e - now ≤ 0) by omega]

theorem hasTimer_startMessageTimer_mono (i : String) (m : Message) (now : Int)
    (st : SchedState) (h : hasTimer i st = true) :
    hasTimer i (startMessageTimer m now st).1 = true := by
  rw [startMessageTimer]
  match hexp : m.expiresAt with
  | none => exact h
  | some e =>
    by_cases hh : hasTimer m.id st
    · simp [hh, h]
    · by_cases hp : e - now ≤ 0
      · simp [hh, hp, h]
      · simp only [hh, hp]
        simp only [Bool.false_eq_true, if_false, if_neg hp]
        rw [hasTimer] at h ⊢
        simp only [recordGet]
        by_cases hmi : m.id = i
        · simp [hmi]
        · simp [hmi, h]

theorem startMessageTimer_arms (m : Message) (e now : Int) (st : SchedState)
    (hexp : m.expiresAt = some e) (hfut : now < e) :
    hasTimer m.id (startMessageTimer m now st).1 = true := by
  rw [startMessageTimer, hexp]
  by_cases hh : hasTimer m.id st
  · simp [hh]
  · have hh2 : (recordGet m.id st.activeTimers).isSome = false := by
      rw [hasTimer] at hh
      simpa using hh
    simp [hasTimer, hh2, show ¬(e - now ≤ 0) by omega, recordGet]

theorem initFold_events (now : Int) (messages : List Message)
    (acc : SchedState × List String) :
    (messages.foldl (initStep now) acc).2 = acc.2 := by
  induction messages generalizing acc with
  | nil => rfl
  | cons hd tl ih =>
    rw [List.foldl_cons, ih]
    rw [initStep]
    match hexp : hd.expiresAt with
    | none => rfl
    | some e =>
      by_cases hf : now < e
      · simp [hf, startMessageTimer_no_fire hd e now acc.1 hexp hf]
      · simp [hf]

theorem initFold_hasTimer_mono (now : Int) (messages : List Message)
    (acc : SchedState × List String) (i : String) (h : hasTimer i acc.1 = true) :
    hasTimer i (messages.foldl (initStep now) acc).1 = true := by
  induction messages generalizing acc with
  | nil => exact h
  | cons hd tl ih =>
    rw [List.foldl_cons]
    refine ih _ ?_
    rw [initStep]
    match hexp : hd.expiresAt with
    | none => exact h
    | some e =>
      by_cases hf : now < e
      · simp only [hf, if_true]
        exact hasTimer_startMessageTimer_mono i hd now acc.1 h
      · simp [hf, h]

/-- Counterexample to claim C8: `initializeTimers` over a single
already-expired message invokes no `onExpire` at all (it skips the message),
whereas `startMessageTimer` on that same message fires `onExpire`
immediately — the claimed mirroring does not hold. -/
theorem initializeTimers_skips_expired_counterexample :
    initializeTimers [{ id := "old", conversationId := "c", expiresAt := some 10 }] 100
      { activeTimers := [] } = ({ activeTimers := [] }, []) ∧
    (startMessageTimer { id := "old", conversationId := "c", expiresAt := some 10 } 100
      { activeTimers := [] }).2 = ["old"] := by
  constructor
  · decide
  · decide

theorem initFold_arms (now : Int) (messages : List Message) (m : Message) (e : Int)
    (hexp : m.expiresAt = some e) (hfut : now < e) (hmem : m ∈ messages) :
    ∀ acc : SchedState × List String,
      hasTimer m.id (messages.foldl (initStep now) acc).1 = true := by
  induction messages with
  | nil => simp at hmem
  | cons hd tl ih =>
    intro acc
    rw [List.foldl_cons]
    rcases List.mem_cons.mp hmem with heq | htl
    · subst heq
      have hstep : hasTimer m.id (initStep now acc m).1 = true := by
        simp only [initStep, hexp, hfut, if_true]
        exact startMessageTimer_arms m e now acc.1 hexp hfut
      exact initFold_hasTimer_mono now tl (initStep now acc m) m.id hstep
    · exact ih htl (initStep now acc hd)

/-- Claim C8 as amended: `initializeTimers` arms a timer for every message
whose `expiresAt` is strictly in the future, and never invokes `onExpire` —
messages already past expiry are skipped entirely rather than expired
immediately as `startMessageTimer` would. -/
theorem initializeTimers_arms_future_only (messages : List Message) (now : Int)
    (st : SchedState) :
    (initializeTimers messages now st).2 = [] ∧
    ∀ m ∈ messages, ∀ e, m.expiresAt = some e → now < e →
      hasTimer m.id (initializeTimers messages now st).1 = true := by
  constructor
  · exact initFold_events now messages (st, [])
  · intro m hmem e hexp hfut
    exact initFold_arms now messages m e hexp hfut hmem (st, [])

/-- Witness for the amended C8 on one future-dated message. -/
theorem initializeTimers_arms_future_only_witness :
    (initializeTimers [{ id := "f", conversationId := "c", expiresAt := some 100 }] 50
      { activeTimers := [] }).2 = [] ∧
    hasTimer "f"
      (initializeTimers [{ id := "f", conversationId := "c", expiresAt := some 100 }] 50
        { activeTimers := [] }).1 = true :=
  ⟨(initializeTimers_arms_future_only
      [{ id := "f", conversationId := "c", expiresAt := some 100 }] 50
      { activeTimers := [] }).1,
   (initializeTimers_arms_future_only
      [{ id := "f", conversationId := "c", expiresAt := some 100 }] 50
      { activeTimers := [] }).2
     { id := "f", conversationId := "c", expiresAt := some 100 } (by simp)
     100 rfl (by decide)⟩

/-- Expiry test used by `cleanupExpiredMessages` (src/unnamed/part_001 line
355): a message is expired when it has a TTL and that TTL is now-or-past. -/
def isExpired (now : Int) (message : Message) : Bool :=
  match message.expiresAt with
  | some e => decide (e ≤ now)
  | none => false

/-- Observable outcome of one `cleanupExpiredMessages` call: the returned
still-valid messages, the deletion requests issued to the external sink
(`deleteMessage`), and the locally logged sink failures. -/
structure CleanupResult where
  validMessages : List Message
  deletionRequests : List (String × String)
  loggedErrors : List (String × String)
  deriving DecidableEq, Repr

/-- Loop body of `cleanupExpiredMessages` (src/unnamed/part_001 lines
354-363): an expired message triggers a fire-and-forget deletion request whose
failure is only logged (`.catch` with `console.error`); a live message is
appended to the returned list.  `sink` models `deleteMessage`'s eventual
success or failure. -/
def cleanupStep (conversationId : String) (now : Int)
    (sink : String → String → Bool) (acc : CleanupResult) (message : Message) :
    CleanupResult :=
  if isExpired now message then
    let ok := sink conversationId message.id
    { acc with
      deletionRequests := acc.deletionRequests ++ [(conversationId, message.id)]
      loggedErrors :=
        if ok then acc.loggedErrors
        else acc.loggedErrors ++ [(conversationId, message.id)] }
  else { acc with validMessages := acc.validMessages ++ [message] }

/-- Model of `cleanupExpiredMessages` (src/unnamed/part_001 lines 347-366). -/
def cleanupExpiredMessages (messages : List Message) (conversationId : String)
    (now : Int) (sink : String → String → Bool) : CleanupResult :=
  messages.foldl (cleanupStep conversationId now sink)
    { validMessages := [], deletionRequests := [], loggedErrors := [] }

theorem cleanupFold_characterization (messages : List Message)
    (conversationId : String) (now : Int) (sink : String → String → Bool)
    (acc : CleanupResult) :
    (messages.foldl (cleanupStep conversationId now sink) acc).validMessages =
      acc.validMessages ++ messages.filter (fun m => !isExpired now m) ∧
    (messages.foldl (cleanupStep conversationId now sink) acc).deletionRequests =
      acc.deletionRequests ++
        (messages.filter (isExpired now)).map (fun m => (conversationId, m.id)) := by
  induction messages generalizing acc with
  | nil => simp
  | cons hd tl ih =>
    rw [List.foldl_cons]
    rcases ih (cleanupStep conversationId now sink acc hd) with ⟨ihv, ihd⟩
    by_cases hx : isExpired now hd
    · constructor
      · rw [ihv]
        simp [cleanupStep, hx]
      · rw [ihd]
        simp [cleanupStep, hx]
    · constructor
      · rw [ihv]
        simp [cleanupStep, hx]
      · rw [ihd]
        simp [cleanupStep, hx]

/-- Claim C9: `cleanupExpiredMessages` returns exactly the not-yet-expired
messages, issues one deletion request per expired message, and sink failures
never reach the caller: the returned partition and the issued requests are
identical for every sink behaviour, failures surfacing only in the local
log. -/
theorem cleanup_partition_sink_independent (messages : List Message)
    (conversationId : String) (now : Int) (sink sink2 : String → String → Bool) :
    (cleanupExpiredMessages messages conversationId now sink).validMessages =
      messages.filter (fun m => !isExpired now m) ∧
    (cleanupExpiredMessages messages conversationId now sink).deletionRequests =
      (messages.filter (isExpired now)).map (fun m => (conversationId, m.id)) ∧
    (cleanupExpiredMessages messages conversationId now sink2).validMessages =
      (cleanupExpiredMessages messages conversationId now sink).validMessages ∧
    (cleanupExpiredMessages messages conversationId now sink2).deletionRequests =
      (cleanupExpiredMessages messages conversationId now sink).deletionRequests := by
  rcases cleanupFold_characterization messages conversationId now sink
    { validMessages := [], deletionRequests := [], loggedErrors := [] } with ⟨hv, hd⟩
  rcases cleanupFold_characterization messages conversationId now sink2
    { validMessages := [], deletionRequests := [], loggedErrors := [] } with ⟨hv2, hd2⟩
  rw [cleanupExpiredMessages, hv, hd, cleanupExpiredMessages, hv2, hd2]
  simp

/-- Claim C10: `startMessageTimer` on a message whose expiry is now-or-past
(and whose id is unregistered) fires `onExpire`, leaves the timer map
untouched — the id stays unregistered and `getActiveTimerCount` does not
grow — and a repeat call fires `onExpire` again instead of being suppressed
by the idempotence guard. -/
theorem immediate_expiry_unregistered (m : Message) (e now : Int)
    (st : SchedState) (hexp : m.expiresAt = some e) (hpast : e ≤ now)
    (habs : hasTimer m.id st = false) :
    startMessageTimer m now st = (st, [m.id]) ∧
    getActiveTimerCount (startMessageTimer m now st).1 = getActiveTimerCount st ∧
    hasTimer m.id (startMessageTimer m now st).1 = false ∧
    (startMessageTimer m now (startMessageTimer m now st).1).2 = [m.id] := by
  have h0 : startMessageTimer m now st = (st, [m.id]) := by
    rw [startMessageTimer, hexp]
    simp [habs, show e - now ≤ 0 by omega]
  refine ⟨h0, by rw [h0], by rw [h0]; exact habs, by rw [h0]; rw [h0]⟩

/-- Witness for C10 on a concrete already-expired message and empty state. -/
theorem immediate_expiry_unregistered_witness :
    ((({ id := "m9", conversationId := "c", expiresAt := some 10 } : Message).expiresAt
        = some 10) ∧
      ((10 : Int) ≤ 100) ∧
      (hasTimer "m9" { activeTimers := [] } = false)) ∧
    (startMessageTimer { id := "m9", conversationId := "c", expiresAt := some 10 } 100
        { activeTimers := [] } = ({ activeTimers := [] }, ["m9"]) ∧
      getActiveTimerCount
        (startMessageTimer { id := "m9", conversationId := "c", expiresAt := some 10 } 100
          { activeTimers := [] }).1 = getActiveTimerCount { activeTimers := [] } ∧
      hasTimer "m9"
        (startMessageTimer { id := "m9", conversationId := "c", expiresAt := some 10 } 100
          { activeTimers := [] }).1 = false ∧
      (startMessageTimer { id := "m9", conversationId := "c", expiresAt := some 10 } 100
        (startMessageTimer { id := "m9", conversationId := "c", expiresAt := some 10 } 100
          { activeTimers := [] }).1).2 = ["m9"]) :=
  ⟨⟨by decide, by decide, by decide⟩,
    immediate_expiry_unregistered
      { id := "m9", conversationId := "c", expiresAt := some 10 } 10 100
      { activeTimers := [] } (by decide) (by decide) (by decide)⟩
